import Mathlib

/-!
Verification of the control-toolbox core against its specification.

Shallow embedding of two source files:
* `ct_core/include/ct/core/systems/LTISystem.h` — the LTI system class with
  structural analyses (controllability / observability matrices and rank tests,
  discrete-time Gramian iterations, unsupported continuous-time variants).
* `ct_optcon/include/ct/optcon/solver/lqp/HPIPMInterface.hpp` — the transcription
  of a deviation-coordinate LQ optimal-control problem into absolute-coordinate
  QP data, plus solution extraction.

Scalars (`double` in the source) are modelled as `ℚ`; fixed-size Eigen matrices
become `Matrix (Fin r) (Fin c) ℚ`.  Eigen's `.block` writes are modelled on an
unbounded grid `ℕ → ℕ → ℚ` so that the exact index arithmetic of the source is
preserved, including writes that fall outside the declared matrix extents.
-/

namespace CTCore

open Matrix

abbrev Mat (r c : ℕ) : Type := Matrix (Fin r) (Fin c) ℚ

abbrev Vec (n : ℕ) : Type := Fin n → ℚ

/-- Entrywise 1-norm: Eigen's `lpNorm<1>()` on a matrix sums the absolute
values of all coefficients.  This is what the convergence check of the Gramian
iterations computes (source comment calls it the "matrix 1-norm"). -/
def l1Norm {r c : ℕ} (M : Mat r c) : ℚ :=
  ∑ i : Fin r, ∑ j : Fin c, abs (M i j)

/-- Symmetric positive-semidefinite predicate over ℚ-matrices. -/
def IsPSDQ {n : ℕ} (M : Mat n n) : Prop :=
  M.IsSymm ∧ ∀ v : Vec n, 0 ≤ v ⬝ᵥ M.mulVec v

/-- Write a `br × bc` block `M` onto an unbounded grid at top-left corner
`(r0, c0)`; entries outside the block keep the previous grid value.  This is
the semantics of Eigen's `G.block<br,bc>(r0,c0) = M` in terms of the literal
index arithmetic of the source (no bounds enforcement, as with `NDEBUG`). -/
def writeBlk (br bc : ℕ) (r0 c0 : ℕ) (M : Mat br bc) (g : ℕ → ℕ → ℚ) :
    ℕ → ℕ → ℚ := fun r c =>
  if h : r0 ≤ r ∧ r < r0 + br ∧ c0 ≤ c ∧ c < c0 + bc then
    M ⟨r - r0, by omega⟩ ⟨c - c0, by omega⟩
  else g r c

/-- Read a `br × bc` block from an unbounded grid at top-left `(r0, c0)`. -/
def readBlk (br bc : ℕ) (r0 c0 : ℕ) (g : ℕ → ℕ → ℚ) : Mat br bc :=
  Matrix.of fun i j => g (r0 + (i : ℕ)) (c0 + (j : ℕ))

/-! ### LTISystem data and constructors

Embedding of the member fields `A_, B_, C_, D_` and the two constructors of
`ct::core::LTISystem` (source lines 50–72).  The no-argument constructor calls
`setZero()` on all four members; the two-argument constructor defaults `C` to
`Identity()` and `D` to `Zero()`. -/

structure LTISystemData (n m : ℕ) where
  A : Mat n n
  B : Mat n m
  C : Mat n n
  D : Mat n m

/-- No-argument constructor `LTISystem()`: `A_.setZero(); B_.setZero();
C_.setZero(); D_.setZero();` (source lines 50–56). -/
def LTISystemData.mkDefault (n m : ℕ) : LTISystemData n m :=
  ⟨0, 0, 0, 0⟩

/-- Two-argument constructor `LTISystem(A, B)` using the declared default
arguments `C = state_matrix_t::Identity()` and `D = state_control_matrix_t::Zero()`
(source lines 66–72). -/
def LTISystemData.mkAB {n m : ℕ} (A : Mat n n) (B : Mat n m) :
    LTISystemData n m :=
  ⟨A, B, 1, 0⟩

/-- Four-argument constructor `LTISystem(A, B, C, D)` with all matrices
supplied explicitly (source lines 66–72). -/
def LTISystemData.mkABCD {n m : ℕ} (A : Mat n n) (B : Mat n m) (C : Mat n n)
    (D : Mat n m) : LTISystemData n m :=
  ⟨A, B, C, D⟩

/-! ### Explicitly unsupported operations

Each of these throws `std::runtime_error` unconditionally in the source; the
embedding returns `Except.error` with the exact message string. -/

/-- Member `computeOutput` (source lines 115–122): unconditionally throws
before touching its arguments; the commented-out `output = C_*state + D_*control`
is dead code. -/
def computeOutput {n m : ℕ} (_sys : LTISystemData n m) (_state : Vec n) (_tn : ℚ)
    (_control : Vec m) : Except String (Vec n) :=
  Except.error "LTISystem: computeOutput() not ported to manifolds yet."

/-- Continuous-time overload of `computeControllabilityGramian` (source lines
224–231): enabled when `CONT_T == CONTINUOUS_TIME`, throws unconditionally. -/
def computeControllabilityGramianCT {n m : ℕ} (_sys : LTISystemData n m)
    (_maxIters : ℕ) (_tolerance : ℚ) : Except String (Mat n n) :=
  Except.error
    "Computation of controllability Gramian not implemented for continuous-time systems yet."

/-- Continuous-time overload of `computeObservabilityGramian` (source lines
266–273): throws unconditionally. -/
def computeObservabilityGramianCT {n m : ℕ} (_sys : LTISystemData n m)
    (_maxIters : ℕ) (_tolerance : ℚ) : Except String (Mat n n) :=
  Except.error
    "Computation of observability Gramian not implemented for continuous-time systems yet."

/-- Member `HPIPMInterface::getFeedback` (HPIPMInterface.hpp line 146):
`throw std::runtime_error("not implemented")`.  The would-be result type is the
feedback-gain array. -/
def getFeedback (n m _N : ℕ) : Except String (List (Matrix (Fin m) (Fin n) ℚ)) :=
  Except.error "not implemented"

/-! ### Controllability matrix

Embedding of `computeControllabilityMatrix` (source lines 132–141):

```
CO.block<STATE_DIM, CONTROL_DIM>(0, 0) = B_;
for (size_t i = 1; i < STATE_DIM; i++)
  CO.block<STATE_DIM, CONTROL_DIM>(0, i * CONTROL_DIM) =
      A_ * CO.block<STATE_DIM, CONTROL_DIM>(0, (i - 1) * CONTROL_DIM);
```

`CO` is an `n × (n·m)` matrix (`n` = STATE_DIM, `m` = CONTROL_DIM).  The source
operates on an uninitialized stack matrix; `init` models its initial contents. -/

def coGrid (n m : ℕ) (A : Mat n n) (B : Mat n m) (init : ℕ → ℕ → ℚ) :
    ℕ → ℕ → ℚ :=
  (List.range' 1 (n - 1)).foldl
    (fun g i => writeBlk n m 0 (i * m) (A * readBlk n m 0 ((i - 1) * m) g) g)
    (writeBlk n m 0 0 B init)

/-- Declared extent of `CO`: the `n × (n·m)` matrix read back from the grid. -/
def computeControllabilityMatrix (n m : ℕ) (A : Mat n n) (B : Mat n m)
    (init : ℕ → ℕ → ℚ) : Mat n (n * m) :=
  Matrix.of fun r c => coGrid n m A B init (r : ℕ) (c : ℕ)

/-- Helper: a `Fin (n*m)` index forces `0 < m`. -/
lemma pos_of_fin_mul {n m : ℕ} (c : Fin (n * m)) : 0 < m := by
  rcases Nat.eq_zero_or_pos m with h | h
  · exact absurd c.isLt (by simp [h])
  · exact h

/-- Block matrix `[B, AB, A²B, …, A^(n−1)B]` as the spec describes it, for
comparison with the transcribed `computeControllabilityMatrix`. -/
def stackedCO (n m : ℕ) (A : Mat n n) (B : Mat n m) : Mat n (n * m) :=
  Matrix.of fun r c =>
    (A ^ ((c : ℕ) / m) * B) r ⟨(c : ℕ) % m, Nat.mod_lt _ (pos_of_fin_mul c)⟩

/-- Embedding of `isControllable` (source lines 149–156): computes the
controllability matrix and returns whether its rank (via a rank-revealing
full-pivot LU decomposition, exact over ℚ) equals STATE_DIM.  The stack matrix
`CO` is uninitialized before the call; `init` models its initial contents (the
result is proved independent of it). -/
def isControllable (n m : ℕ) (A : Mat n n) (B : Mat n m)
    (init : ℕ → ℕ → ℚ) : Prop :=
  (computeControllabilityMatrix n m A B init).rank = n

/-! ### Observability matrix

Embedding of `computeObservabilityMatrix` (source lines 165–174):

```
O.block<STATE_DIM, STATE_DIM>(0, 0) = C_;
for (size_t i = 1; i < STATE_DIM; i++)
  O.block<STATE_DIM, STATE_DIM>(i * STATE_DIM, 0) =
      O.block<STATE_DIM, STATE_DIM>(0, (i - 1) * STATE_DIM) * A_;
```

`O` is declared as an `n × (n·n)` matrix, so for `i ≥ 1` the write targets rows
`i·n … i·n+n−1`, which lie outside the declared `n` rows (an out-of-bounds
block in the source, an Eigen precondition violation).  The grid model keeps
the literal indices; the declared extent is read back below. -/

def obsGrid (n : ℕ) (A C : Mat n n) (init : ℕ → ℕ → ℚ) : ℕ → ℕ → ℚ :=
  (List.range' 1 (n - 1)).foldl
    (fun g i => writeBlk n n (i * n) 0 ((readBlk n n 0 ((i - 1) * n) g) * A) g)
    (writeBlk n n 0 0 C init)

/-- Declared extent of `O`: the `n × (n·n)` matrix read back from the grid. -/
def computeObservabilityMatrix (n : ℕ) (A C : Mat n n)
    (init : ℕ → ℕ → ℚ) : Mat n (n * n) :=
  Matrix.of fun r c => obsGrid n A C init (r : ℕ) (c : ℕ)

/-- Embedding of `isObservable` (source lines 182–189): rank test on the matrix
produced by `computeObservabilityMatrix`. -/
def isObservable (n : ℕ) (A C : Mat n n) (init : ℕ → ℕ → ℚ) : Prop :=
  (computeObservabilityMatrix n A C init).rank = n

/-! ### Discrete-time Gramian iterations

Embedding of `computeControllabilityGramian` (source lines 197–223) and
`computeObservabilityGramian` (source lines 239–265).  The `while` loop is
modelled with the remaining iteration budget `max_iters − n_iters` as fuel;
`CGprev`/`Aprev` are the loop variables `CG_prev`/`A_prev`.  When the budget is
exhausted the loop falls through and returns `CG`, which at that point equals
`CG_prev` (they are synchronized at the end of each iteration, and both start
at zero), so the fuel-0 case returns `CGprev`. -/

def ctrlGramLoop (n m : ℕ) (A : Mat n n) (B : Mat n m) (tol : ℚ) :
    ℕ → Mat n n → Mat n n → Mat n n
  | 0, CGprev, _ => CGprev
  | fuel + 1, CGprev, Aprev =>
    let CG := CGprev + Aprev * B * Bᵀ * Aprevᵀ
    if l1Norm (CGprev - CG) < tol then CG
    else ctrlGramLoop n m A B tol fuel CG (Aprev * A)

/-- Discrete-time `computeControllabilityGramian(max_iters, tolerance)`. -/
def computeControllabilityGramianD (n m : ℕ) (A : Mat n n) (B : Mat n m)
    (maxIters : ℕ) (tol : ℚ) : Mat n n :=
  ctrlGramLoop n m A B tol maxIters 0 1

def obsGramLoop (n : ℕ) (A C : Mat n n) (tol : ℚ) :
    ℕ → Mat n n → Mat n n → Mat n n
  | 0, OGprev, _ => OGprev
  | fuel + 1, OGprev, Aprev =>
    let OG := OGprev + Aprevᵀ * Cᵀ * C * Aprev
    if l1Norm (OGprev - OG) < tol then OG
    else obsGramLoop n A C tol fuel OG (Aprev * A)

/-- Discrete-time `computeObservabilityGramian(max_iters, tolerance)`. -/
def computeObservabilityGramianD (n : ℕ) (A C : Mat n n)
    (maxIters : ℕ) (tol : ℚ) : Mat n n :=
  obsGramLoop n A C tol maxIters 0 1

/-- Term added at iteration `k` of the controllability-Gramian loop
(`A_prev = A^k` there): `A^k·B·Bᵀ·(A^k)ᵀ`. -/
def ctrlGramTerm (n m : ℕ) (A : Mat n n) (B : Mat n m) (k : ℕ) : Mat n n :=
  A ^ k * B * Bᵀ * (A ^ k)ᵀ

/-- Partial sum `Σ_{k<K} A^k·B·Bᵀ·(A^k)ᵀ`. -/
def ctrlGramSum (n m : ℕ) (A : Mat n n) (B : Mat n m) (K : ℕ) : Mat n n :=
  ∑ k ∈ Finset.range K, ctrlGramTerm n m A B k

/-- Term added at iteration `k` of the observability-Gramian loop:
`(A^k)ᵀ·Cᵀ·C·A^k`. -/
def obsGramTerm (n : ℕ) (A C : Mat n n) (k : ℕ) : Mat n n :=
  (A ^ k)ᵀ * Cᵀ * C * A ^ k

/-- Partial sum `Σ_{k<K} (A^k)ᵀ·Cᵀ·C·A^k`. -/
def obsGramSum (n : ℕ) (A C : Mat n n) (K : ℕ) : Mat n n :=
  ∑ k ∈ Finset.range K, obsGramTerm n A C k

/-! ### Helper lemmas for block reads and writes -/

lemma readBlk_writeBlk_same {br bc r0 c0 : ℕ} (M : Mat br bc)
    (g : ℕ → ℕ → ℚ) :
    readBlk br bc r0 c0 (writeBlk br bc r0 c0 M g) = M := by
  ext i j
  show writeBlk br bc r0 c0 M g (r0 + (i : ℕ)) (c0 + (j : ℕ)) = M i j
  have hcond : r0 ≤ r0 + (i : ℕ) ∧ r0 + (i : ℕ) < r0 + br ∧
      c0 ≤ c0 + (j : ℕ) ∧ c0 + (j : ℕ) < c0 + bc := by
    have hi := i.isLt
    have hj := j.isLt
    omega
  rw [writeBlk, dif_pos hcond]
  congr 1 <;> apply Fin.ext <;> simp

/-- Reading a block whose column range lies strictly left of the written
block's column range sees through the write. -/
lemma readBlk_writeBlk_left {br bc br' bc' r0 c0 r0' c0' : ℕ} (M : Mat br bc)
    (g : ℕ → ℕ → ℚ) (h : c0' + bc' ≤ c0) :
    readBlk br' bc' r0' c0' (writeBlk br bc r0 c0 M g) =
      readBlk br' bc' r0' c0' g := by
  ext i j
  show writeBlk br bc r0 c0 M g (r0' + (i : ℕ)) (c0' + (j : ℕ)) =
    g (r0' + (i : ℕ)) (c0' + (j : ℕ))
  have hj := j.isLt
  rw [writeBlk, dif_neg]
  omega

/-- Reading a block whose row range lies strictly above the written block's
row range sees through the write. -/
lemma readBlk_writeBlk_above {br bc br' bc' r0 c0 r0' c0' : ℕ} (M : Mat br bc)
    (g : ℕ → ℕ → ℚ) (h : r0' + br' ≤ r0) :
    readBlk br' bc' r0' c0' (writeBlk br bc r0 c0 M g) =
      readBlk br' bc' r0' c0' g := by
  ext i j
  show writeBlk br bc r0 c0 M g (r0' + (i : ℕ)) (c0' + (j : ℕ)) =
    g (r0' + (i : ℕ)) (c0' + (j : ℕ))
  have hi := i.isLt
  rw [writeBlk, dif_neg]
  omega

/-! ### Helper lemmas for the controllability-matrix construction -/

/-- State of the controllability-matrix loop after processing indices
`1 … k`. -/
def coAux (n m : ℕ) (A : Mat n n) (B : Mat n m) (init : ℕ → ℕ → ℚ)
    (k : ℕ) : ℕ → ℕ → ℚ :=
  (List.range' 1 k).foldl
    (fun g i => writeBlk n m 0 (i * m) (A * readBlk n m 0 ((i - 1) * m) g) g)
    (writeBlk n m 0 0 B init)

lemma coGrid_eq_coAux (n m : ℕ) (A : Mat n n) (B : Mat n m)
    (init : ℕ → ℕ → ℚ) : coGrid n m A B init = coAux n m A B init (n - 1) :=
  rfl

lemma coAux_zero (n m : ℕ) (A : Mat n n) (B : Mat n m) (init : ℕ → ℕ → ℚ) :
    coAux n m A B init 0 = writeBlk n m 0 0 B init :=
  rfl

lemma coAux_succ (n m : ℕ) (A : Mat n n) (B : Mat n m) (init : ℕ → ℕ → ℚ)
    (k : ℕ) :
    coAux n m A B init (k + 1) =
      writeBlk n m 0 ((k + 1) * m)
        (A * readBlk n m 0 (k * m) (coAux n m A B init k))
        (coAux n m A B init k) := by
  unfold coAux
  rw [List.range'_1_concat, List.foldl_append, List.foldl_cons, List.foldl_nil,
    Nat.add_comm 1 k, Nat.add_sub_cancel]

/-- After processing indices `1 … k`, the block at columns
`i·m … i·m+m−1` (for `i ≤ k`) holds `A^i·B`. -/
lemma coAux_block (n m : ℕ) (A : Mat n n) (B : Mat n m) (init : ℕ → ℕ → ℚ) :
    ∀ k i, i ≤ k →
      readBlk n m 0 (i * m) (coAux n m A B init k) = A ^ i * B := by
  intro k
  induction k with
  | zero =>
    intro i hi
    have h0 : i = 0 := by omega
    subst h0
    rw [coAux_zero, Nat.zero_mul, pow_zero, Matrix.one_mul]
    exact readBlk_writeBlk_same B init
  | succ k ih =>
    intro i hi
    rw [coAux_succ]
    rcases Nat.lt_or_ge i (k + 1) with hik | hik
    · have hle : i ≤ k := by omega
      rw [readBlk_writeBlk_left]
      · exact ih i hle
      · calc i * m + m = (i + 1) * m := by ring
        _ ≤ (k + 1) * m := Nat.mul_le_mul_right m (by omega)
    · have heq : i = k + 1 := by omega
      subst heq
      rw [readBlk_writeBlk_same, ih k (le_refl k), ← Matrix.mul_assoc,
        ← pow_succ']

/-- Entrywise characterization: the declared controllability matrix equals the
stacked block matrix `[B, AB, …, A^(n−1)B]`, independently of the initial
(uninitialized) contents of the stack matrix. -/
lemma computeControllabilityMatrix_eq_stacked (n m : ℕ) (A : Mat n n)
    (B : Mat n m) (init : ℕ → ℕ → ℚ) :
    computeControllabilityMatrix n m A B init = stackedCO n m A B := by
  ext r c
  have hm : 0 < m := pos_of_fin_mul c
  have hin : (c : ℕ) / m < n := (Nat.div_lt_iff_lt_mul hm).2 c.isLt
  have hile : (c : ℕ) / m ≤ n - 1 := by omega
  have hblock := coAux_block n m A B init (n - 1) ((c : ℕ) / m) hile
  have hentry := congrFun (congrFun hblock r) ⟨(c : ℕ) % m, Nat.mod_lt _ hm⟩
  have hc : (c : ℕ) / m * m + (c : ℕ) % m = (c : ℕ) := by
    rw [Nat.mul_comm]
    exact Nat.div_add_mod _ m
  show coGrid n m A B init (r : ℕ) (c : ℕ) =
    (A ^ ((c : ℕ) / m) * B) r ⟨(c : ℕ) % m, Nat.mod_lt _ hm⟩
  rw [coGrid_eq_coAux]
  have hlhs : readBlk n m 0 ((c : ℕ) / m * m) (coAux n m A B init (n - 1)) r
      ⟨(c : ℕ) % m, Nat.mod_lt _ hm⟩ =
      coAux n m A B init (n - 1) (r : ℕ) (c : ℕ) := by
    show coAux n m A B init (n - 1) (0 + (r : ℕ))
        ((c : ℕ) / m * m + (c : ℕ) % m) = _
    rw [Nat.zero_add, hc]
  rw [← hlhs]
  exact hentry

/-- Right inverse of `stackedCO n n 0 1`: the inclusion of the first block. -/
def coInclusion (n : ℕ) : Matrix (Fin (n * n)) (Fin n) ℚ :=
  Matrix.of fun c r => if (c : ℕ) = (r : ℕ) then 1 else 0

lemma stackedCO_mul_coInclusion (n : ℕ) (hn : 0 < n) :
    stackedCO n n (0 : Mat n n) 1 * coInclusion n = 1 := by
  ext r s
  have hsn : (s : ℕ) < n * n := lt_of_lt_of_le s.isLt (Nat.le_mul_of_pos_left n hn)
  rw [Matrix.mul_apply]
  have hsum : ∀ c : Fin (n * n),
      stackedCO n n (0 : Mat n n) 1 r c * coInclusion n c s =
        if c = (⟨(s : ℕ), hsn⟩ : Fin (n * n)) then
          stackedCO n n (0 : Mat n n) 1 r c else 0 := by
    intro c
    by_cases hcs : c = (⟨(s : ℕ), hsn⟩ : Fin (n * n))
    · rw [if_pos hcs]
      have : coInclusion n c s = 1 := by
        rw [coInclusion]
        show (if (c : ℕ) = (s : ℕ) then (1 : ℚ) else 0) = 1
        rw [if_pos (by rw [hcs])]
      rw [this, mul_one]
    · rw [if_neg hcs]
      have : coInclusion n c s = 0 := by
        rw [coInclusion]
        show (if (c : ℕ) = (s : ℕ) then (1 : ℚ) else 0) = 0
        rw [if_neg (fun h => hcs (Fin.ext h))]
      rw [this, mul_zero]
  rw [Finset.sum_congr rfl fun c _ => hsum c, Finset.sum_ite_eq']
  rw [if_pos (Finset.mem_univ _)]
  have hfin : (⟨(s : ℕ) % n, Nat.mod_lt _ hn⟩ : Fin n) = s :=
    Fin.ext (Nat.mod_eq_of_lt s.isLt)
  show ((0 : Mat n n) ^ ((s : ℕ) / n) * 1) r ⟨(s : ℕ) % n, Nat.mod_lt _ hn⟩ =
    (1 : Mat n n) r s
  rw [Nat.div_eq_of_lt s.isLt, pow_zero, one_mul, hfin]

/-! ### Helper lemmas for the Gramian iterations -/

lemma l1Norm_neg {r c : ℕ} (M : Mat r c) : l1Norm (-M) = l1Norm M := by
  unfold l1Norm
  refine Finset.sum_congr rfl fun i _ => Finset.sum_congr rfl fun j _ => ?_
  simp [abs_neg]

lemma ctrlGramSum_succ (n m : ℕ) (A : Mat n n) (B : Mat n m) (K : ℕ) :
    ctrlGramSum n m A B (K + 1) = ctrlGramSum n m A B K + ctrlGramTerm n m A B K :=
  Finset.sum_range_succ _ K

lemma obsGramSum_succ (n : ℕ) (A C : Mat n n) (K : ℕ) :
    obsGramSum n A C (K + 1) = obsGramSum n A C K + obsGramTerm n A C K :=
  Finset.sum_range_succ _ K

/-- Loop invariant for the controllability-Gramian iteration: started from the
partial sum of `j` terms and `A_prev = A^j`, the loop returns a partial sum of
`j + K` terms, where either the budget ran out (`K = fuel`) or the last added
term's entrywise 1-norm dropped below the tolerance. -/
lemma ctrlGramLoop_spec (n m : ℕ) (A : Mat n n) (B : Mat n m) (tol : ℚ) :
    ∀ fuel j, ∃ K, K ≤ fuel ∧
      ctrlGramLoop n m A B tol fuel (ctrlGramSum n m A B j) (A ^ j) =
        ctrlGramSum n m A B (j + K) ∧
      (K = fuel ∨ (0 < K ∧ l1Norm (ctrlGramTerm n m A B (j + K - 1)) < tol)) := by
  intro fuel
  induction fuel with
  | zero =>
    intro j
    exact ⟨0, le_refl 0, rfl, Or.inl rfl⟩
  | succ fuel ih =>
    intro j
    have hterm : A ^ j * B * Bᵀ * (A ^ j)ᵀ = ctrlGramTerm n m A B j := rfl
    have hdiff : ctrlGramSum n m A B j -
        (ctrlGramSum n m A B j + A ^ j * B * Bᵀ * (A ^ j)ᵀ) =
        -(ctrlGramTerm n m A B j) := by
      rw [hterm]; abel
    by_cases hc : l1Norm (ctrlGramTerm n m A B j) < tol
    · refine ⟨1, by omega, ?_, Or.inr ⟨one_pos, by simpa using hc⟩⟩
      show (if l1Norm (ctrlGramSum n m A B j -
          (ctrlGramSum n m A B j + A ^ j * B * Bᵀ * (A ^ j)ᵀ)) < tol then
          ctrlGramSum n m A B j + A ^ j * B * Bᵀ * (A ^ j)ᵀ
        else ctrlGramLoop n m A B tol fuel
          (ctrlGramSum n m A B j + A ^ j * B * Bᵀ * (A ^ j)ᵀ) (A ^ j * A)) =
        ctrlGramSum n m A B (j + 1)
      rw [hdiff, l1Norm_neg, if_pos hc, hterm, ← ctrlGramSum_succ]
    · obtain ⟨K, hK, hloop, hstop⟩ := ih (j + 1)
      refine ⟨K + 1, by omega, ?_, ?_⟩
      · show (if l1Norm (ctrlGramSum n m A B j -
            (ctrlGramSum n m A B j + A ^ j * B * Bᵀ * (A ^ j)ᵀ)) < tol then
            ctrlGramSum n m A B j + A ^ j * B * Bᵀ * (A ^ j)ᵀ
          else ctrlGramLoop n m A B tol fuel
            (ctrlGramSum n m A B j + A ^ j * B * Bᵀ * (A ^ j)ᵀ) (A ^ j * A)) =
          ctrlGramSum n m A B (j + (K + 1))
        rw [hdiff, l1Norm_neg, if_neg hc, hterm, ← ctrlGramSum_succ, ← pow_succ]
        have harith : j + 1 + K = j + (K + 1) := by omega
        rw [← harith]
        exact hloop
      · rcases hstop with h | ⟨hKpos, hsmall⟩
        · exact Or.inl (by omega)
        · refine Or.inr ⟨by omega, ?_⟩
          have harith : j + 1 + K - 1 = j + (K + 1) - 1 := by omega
          rwa [harith] at hsmall

/-- Loop invariant for the observability-Gramian iteration, analogous to
`ctrlGramLoop_spec`. -/
lemma obsGramLoop_spec (n : ℕ) (A C : Mat n n) (tol : ℚ) :
    ∀ fuel j, ∃ K, K ≤ fuel ∧
      obsGramLoop n A C tol fuel (obsGramSum n A C j) (A ^ j) =
        obsGramSum n A C (j + K) ∧
      (K = fuel ∨ (0 < K ∧ l1Norm (obsGramTerm n A C (j + K - 1)) < tol)) := by
  intro fuel
  induction fuel with
  | zero =>
    intro j
    exact ⟨0, le_refl 0, rfl, Or.inl rfl⟩
  | succ fuel ih =>
    intro j
    have hterm : (A ^ j)ᵀ * Cᵀ * C * A ^ j = obsGramTerm n A C j := rfl
    have hdiff : obsGramSum n A C j -
        (obsGramSum n A C j + (A ^ j)ᵀ * Cᵀ * C * A ^ j) =
        -(obsGramTerm n A C j) := by
      rw [hterm]; abel
    by_cases hc : l1Norm (obsGramTerm n A C j) < tol
    · refine ⟨1, by omega, ?_, Or.inr ⟨one_pos, by simpa using hc⟩⟩
      show (if l1Norm (obsGramSum n A C j -
          (obsGramSum n A C j + (A ^ j)ᵀ * Cᵀ * C * A ^ j)) < tol then
          obsGramSum n A C j + (A ^ j)ᵀ * Cᵀ * C * A ^ j
        else obsGramLoop n A C tol fuel
          (obsGramSum n A C j + (A ^ j)ᵀ * Cᵀ * C * A ^ j) (A ^ j * A)) =
        obsGramSum n A C (j + 1)
      rw [hdiff, l1Norm_neg, if_pos hc, hterm, ← obsGramSum_succ]
    · obtain ⟨K, hK, hloop, hstop⟩ := ih (j + 1)
      refine ⟨K + 1, by omega, ?_, ?_⟩
      · show (if l1Norm (obsGramSum n A C j -
            (obsGramSum n A C j + (A ^ j)ᵀ * Cᵀ * C * A ^ j)) < tol then
            obsGramSum n A C j + (A ^ j)ᵀ * Cᵀ * C * A ^ j
          else obsGramLoop n A C tol fuel
            (obsGramSum n A C j + (A ^ j)ᵀ * Cᵀ * C * A ^ j) (A ^ j * A)) =
          obsGramSum n A C (j + (K + 1))
        rw [hdiff, l1Norm_neg, if_neg hc, hterm, ← obsGramSum_succ, ← pow_succ]
        have harith : j + 1 + K = j + (K + 1) := by omega
        rw [← harith]
        exact hloop
      · rcases hstop with h | ⟨hKpos, hsmall⟩
        · exact Or.inl (by omega)
        · refine Or.inr ⟨by omega, ?_⟩
          have harith : j + 1 + K - 1 = j + (K + 1) - 1 := by omega
          rwa [harith] at hsmall

/-- Characterization of the returned controllability Gramian as a truncated
partial sum (helper shared by several claim proofs). -/
lemma computeControllabilityGramianD_eq_sum (n m : ℕ) (A : Mat n n)
    (B : Mat n m) (maxIters : ℕ) (tol : ℚ) :
    ∃ K, K ≤ maxIters ∧
      computeControllabilityGramianD n m A B maxIters tol =
        ctrlGramSum n m A B K ∧
      (K = maxIters ∨ (0 < K ∧ l1Norm (ctrlGramTerm n m A B (K - 1)) < tol)) := by
  obtain ⟨K, hK, hloop, hstop⟩ := ctrlGramLoop_spec n m A B tol maxIters 0
  refine ⟨K, hK, ?_, by simpa using hstop⟩
  have h0 : ctrlGramSum n m A B 0 = 0 := Finset.sum_range_zero _
  have hA0 : A ^ 0 = 1 := pow_zero A
  rw [computeControllabilityGramianD, ← h0, ← hA0, hloop]
  simp

/-- Characterization of the returned observability Gramian as a truncated
partial sum. -/
lemma computeObservabilityGramianD_eq_sum (n : ℕ) (A C : Mat n n)
    (maxIters : ℕ) (tol : ℚ) :
    ∃ K, K ≤ maxIters ∧
      computeObservabilityGramianD n A C maxIters tol = obsGramSum n A C K ∧
      (K = maxIters ∨ (0 < K ∧ l1Norm (obsGramTerm n A C (K - 1)) < tol)) := by
  obtain ⟨K, hK, hloop, hstop⟩ := obsGramLoop_spec n A C tol maxIters 0
  refine ⟨K, hK, ?_, by simpa using hstop⟩
  have h0 : obsGramSum n A C 0 = 0 := Finset.sum_range_zero _
  have hA0 : A ^ 0 = 1 := pow_zero A
  rw [computeObservabilityGramianD, ← h0, ← hA0, hloop]
  simp

/-! ### Helper lemmas for positive semidefiniteness -/

lemma dotProduct_self_nonneg_q {k : ℕ} (w : Vec k) : 0 ≤ w ⬝ᵥ w :=
  Finset.sum_nonneg fun i _ => mul_self_nonneg (w i)

lemma isPSDQ_mul_transpose_self {n k : ℕ} (M : Matrix (Fin n) (Fin k) ℚ) :
    IsPSDQ (M * Mᵀ) := by
  constructor
  · show (M * Mᵀ)ᵀ = M * Mᵀ
    rw [Matrix.transpose_mul, Matrix.transpose_transpose]
  · intro v
    rw [← Matrix.mulVec_mulVec, Matrix.dotProduct_mulVec,
      ← Matrix.mulVec_transpose]
    exact dotProduct_self_nonneg_q _

lemma isPSDQ_transpose_mul_self {n k : ℕ} (M : Matrix (Fin k) (Fin n) ℚ) :
    IsPSDQ (Mᵀ * M) := by
  have h := isPSDQ_mul_transpose_self Mᵀ
  rwa [Matrix.transpose_transpose] at h

lemma isPSDQ_zero {n : ℕ} : IsPSDQ (0 : Mat n n) := by
  constructor
  · show (0 : Mat n n)ᵀ = 0
    exact Matrix.transpose_zero
  · intro v
    simp

lemma isPSDQ_add {n : ℕ} {M M₂ : Mat n n} (h : IsPSDQ M) (h₂ : IsPSDQ M₂) :
    IsPSDQ (M + M₂) := by
  constructor
  · show (M + M₂)ᵀ = M + M₂
    rw [Matrix.transpose_add, h.1.eq, h₂.1.eq]
  · intro v
    rw [Matrix.add_mulVec, Matrix.dotProduct_add]
    exact add_nonneg (h.2 v) (h₂.2 v)

lemma isPSDQ_ctrlGramTerm (n m : ℕ) (A : Mat n n) (B : Mat n m) (k : ℕ) :
    IsPSDQ (ctrlGramTerm n m A B k) := by
  have hshape : ctrlGramTerm n m A B k = (A ^ k * B) * (A ^ k * B)ᵀ := by
    rw [ctrlGramTerm, Matrix.transpose_mul, ← Matrix.mul_assoc]
  rw [hshape]
  exact isPSDQ_mul_transpose_self _

lemma isPSDQ_obsGramTerm (n : ℕ) (A C : Mat n n) (k : ℕ) :
    IsPSDQ (obsGramTerm n A C k) := by
  have hshape : obsGramTerm n A C k = (C * A ^ k)ᵀ * (C * A ^ k) := by
    rw [obsGramTerm, Matrix.transpose_mul, ← Matrix.mul_assoc]
  rw [hshape]
  exact isPSDQ_transpose_mul_self _

lemma isPSDQ_ctrlGramSum (n m : ℕ) (A : Mat n n) (B : Mat n m) (K : ℕ) :
    IsPSDQ (ctrlGramSum n m A B K) := by
  induction K with
  | zero => exact isPSDQ_zero
  | succ K ih =>
    rw [ctrlGramSum_succ]
    exact isPSDQ_add ih (isPSDQ_ctrlGramTerm n m A B K)

lemma isPSDQ_obsGramSum (n : ℕ) (A C : Mat n n) (K : ℕ) :
    IsPSDQ (obsGramSum n A C K) := by
  induction K with
  | zero => exact isPSDQ_zero
  | succ K ih =>
    rw [obsGramSum_succ]
    exact isPSDQ_add ih (isPSDQ_obsGramTerm n A C K)

/-! ### HPIPM transcription (`HPIPMInterface::setupHPIPM`, lines 257–322)

The LQ optimal-control problem handed to `setupHPIPM`: per-stage nominal
trajectory `x, u`, dynamics `A, B, b`, and cost terms `P` (the mixed
state-input Hessian block, `S` in the spec), `qv, Q, rv, R`.  Stage arrays are
modelled as total functions on ℕ; only indices `0 … N` are ever populated and
read by the source.  `n` = STATE_DIM, `m` = CONTROL_DIM. -/

structure LQOCProblem (n m : ℕ) where
  x : ℕ → Vec n
  u : ℕ → Vec m
  A : ℕ → Mat n n
  B : ℕ → Mat n m
  b : ℕ → Vec n
  P : ℕ → Matrix (Fin m) (Fin n) ℚ
  qv : ℕ → Vec n
  Q : ℕ → Mat n n
  rv : ℕ → Vec m
  R : ℕ → Mat m m

/-- Generic-stage dynamics offset written into `bEigen_[i]` by the loop at
lines 276–282: `b[i] + x[i+1] − A[i]·x[i] − B[i]·u[i]`. -/
def bEigenArr {n m : ℕ} (p : LQOCProblem n m) : ℕ → Vec n := fun i =>
  p.b i + p.x (i + 1) - p.A i *ᵥ p.x i - p.B i *ᵥ p.u i

/-- First-stage offset `hb0_` (line 284): `b[0] + x[1] − B[0]·u[0]`. -/
def hb0 {n m : ℕ} (p : LQOCProblem n m) : Vec n :=
  p.b 0 + p.x 1 - p.B 0 *ᵥ p.u 0

/-- Effective per-stage dynamics offsets handed to the QP through the `hb_`
pointer array: the loop fills every stage `i < N` with the generic formula
(lines 276–282), then line 285 re-points entry 0 at `hb0_`. -/
def hbArr {n m : ℕ} (p : LQOCProblem n m) : ℕ → Vec n :=
  Function.update (bEigenArr p) 0 (hb0 p)

/-- Generic-stage state-gradient offset `hqEigen_[i]` (line 293):
`qv[i] − Q[i]·x[i] − P[i]ᵀ·u[i]`. -/
def hqEigenArr {n m : ℕ} (p : LQOCProblem n m) : ℕ → Vec n := fun i =>
  p.qv i - p.Q i *ᵥ p.x i - (p.P i)ᵀ *ᵥ p.u i

/-- Effective state-gradient offsets through `hq_`: the loop fills stages
`i < N` with the generic formula (lines 287–297); lines 300–304 overwrite the
terminal entry with `qv[N] − Q[N]·x[N]` (no `P` term at the terminal stage). -/
def hqArr {n m : ℕ} (p : LQOCProblem n m) (N : ℕ) : ℕ → Vec n :=
  Function.update (hqEigenArr p) N (p.qv N - p.Q N *ᵥ p.x N)

/-- Generic-stage input-gradient offset `hrEigen_[i]` (line 295):
`rv[i] − R[i]·u[i] − P[i]·x[i]`. -/
def hrEigenArr {n m : ℕ} (p : LQOCProblem n m) : ℕ → Vec m := fun i =>
  p.rv i - p.R i *ᵥ p.u i - p.P i *ᵥ p.x i

/-- First-stage input-gradient correction `hr0_` (line 307):
`hrEigen_[0] + P[0]·x[0]`. -/
def hr0 {n m : ℕ} (p : LQOCProblem n m) : Vec m :=
  hrEigenArr p 0 + p.P 0 *ᵥ p.x 0

/-- Effective input-gradient offsets through `hr_` (`none` models a null
pointer): the loop fills stages `i < N` with `hrEigen_[i]` (lines 287–297),
line 305 nulls the terminal entry, line 308 re-points entry 0 at `hr0_`. -/
def hrArr {n m : ℕ} (p : LQOCProblem n m) (N : ℕ) : ℕ → Option (Vec m) :=
  Function.update
    (Function.update (fun i => some (hrEigenArr p i)) N none)
    0 (some (hr0 p))

/-- Effective mixed-Hessian pointers `hS_`: stages `i < N` point at `P[i]`
(line 291), the terminal entry is nulled (line 301). -/
def hSArr {n m : ℕ} (p : LQOCProblem n m) (N : ℕ) :
    ℕ → Option (Matrix (Fin m) (Fin n) ℚ) :=
  Function.update (fun i => some (p.P i)) N none

/-- Effective input-Hessian pointers `hR_`: stages `i < N` point at `R[i]`
(line 292), the terminal entry is nulled (line 302). -/
def hRArr {n m : ℕ} (p : LQOCProblem n m) (N : ℕ) :
    ℕ → Option (Mat m m) :=
  Function.update (fun i => some (p.R i)) N none

/-! ### Solution extraction (`getSolutionState` / `getSolutionControl`,
lines 135–144, and sizing in `changeNumberOfStages`, lines 354–383)

The HPIPM kernel (`d_solve_ipm2_hard_ocp_qp` / `d_cvt_ocp_qp_sol_to_colmaj`)
is a third-party library external to this repository; whatever it writes into
the per-stage buffers is abstracted as `rawx` / `rawu`.  The pointer wiring of
`changeNumberOfStages` connects the kernel's stage-`i+1` state output to
`hx_[i+1]` for `i = 0 … N−1` (line 368) — `hx_[0]` is never written by the
kernel — and sizes `hu_` with `N` entries (line 363).  `getSolutionState`
overwrites entry 0 with the problem's fixed initial state `x0` (line 137)
before returning `hx_`. -/

def getSolutionState (n : ℕ) (rawx : ℕ → Vec n) (x0 : Vec n) : ℕ → Vec n :=
  Function.update rawx 0 x0

/-- Returned control trajectory `hu_`: `N` entries, stages `0 … N−1` (the
terminal stage has no control; `hu_.resize(N_)` at line 363). -/
def getSolutionControl (m N : ℕ) (rawu : ℕ → Vec m) : List (Vec m) :=
  (List.range N).map rawu

/-! ### Concrete example problem

A one-dimensional problem used as a concrete input: constant nominal state 1,
zero nominal control, `A = B = 1`, zero defect `b`, so the nominal trajectory
exactly satisfies the dynamics `x_{i+1} = A·x_i + B·u_i`. -/

def exP : LQOCProblem 1 1 where
  x := fun _ _ => 1
  u := fun _ => 0
  A := fun _ => 1
  B := fun _ => 1
  b := fun _ => 0
  P := fun _ => 1
  qv := fun _ _ => 1
  Q := fun _ => 1
  rv := fun _ _ => 1
  R := fun _ => 1

/-! ## Claim theorems -/

/-- C3: the transcription computes `b_abs_i = b_i + x_{i+1} − A_i·x_i − B_i·u_i`
for every interior stage `1 ≤ i < N`, and for the first stage
`b_abs_0 = b_0 + x_1 − B_0·u_0` — the `A_0·x_0` term is dropped at stage 0 and
only there (all other stages below the horizon follow the generic formula). -/
theorem c3_dynamics_offsets {n m : ℕ} (p : LQOCProblem n m) (N i : ℕ)
    (hi1 : 1 ≤ i) (_hiN : i < N) :
    hbArr p i = p.b i + p.x (i + 1) - p.A i *ᵥ p.x i - p.B i *ᵥ p.u i ∧
    hbArr p 0 = p.b 0 + p.x 1 - p.B 0 *ᵥ p.u 0 := by
  constructor
  · have hne : i ≠ 0 := by omega
    simp only [hbArr, Function.update_noteq hne]
    rfl
  · simp only [hbArr, Function.update_same]
    rfl

/-- C3 witness: the interior-stage formula at `i = 1` and the first-stage
formula, on the concrete problem `exP` with horizon `N = 2`. -/
theorem c3_dynamics_offsets_witness :
    (1 ≤ 1 ∧ 1 < 2) ∧
    (hbArr exP 1 = exP.b 1 + exP.x 2 - exP.A 1 *ᵥ exP.x 1 - exP.B 1 *ᵥ exP.u 1 ∧
     hbArr exP 0 = exP.b 0 + exP.x 1 - exP.B 0 *ᵥ exP.u 0) :=
  ⟨⟨le_refl 1, one_lt_two⟩, c3_dynamics_offsets exP 2 1 (le_refl 1) one_lt_two⟩

/-- C1 counterexample: on `exP` with horizon `N = 1` the nominal trajectory
exactly satisfies the dynamics (`b_0 = 0` and `x_1 = A_0·x_0 + B_0·u_0`), yet
the transcribed first-stage offset `b_abs_0` is not the zero vector (it equals
`A_0·x_0 = 1`), refuting the claim that every transcribed offset, including
stage 0, vanishes. -/
theorem c1_counterexample :
    exP.b 0 = 0 ∧
    exP.x 1 = exP.A 0 *ᵥ exP.x 0 + exP.B 0 *ᵥ exP.u 0 ∧
    hbArr exP 0 ≠ 0 := by
  refine ⟨rfl, ?_, ?_⟩
  · funext i
    simp [exP, Matrix.one_mulVec]
  · intro h
    have h0 := congrFun h 0
    simp [hbArr, hb0, exP, Matrix.one_mulVec, Function.update_same] at h0

/-- C1 (amended): if the nominal trajectory exactly satisfies the dynamics
(`b_i = 0` and `x_{i+1} = A_i·x_i + B_i·u_i` for all stages below the horizon),
then every transcribed offset `b_abs_i` for an interior stage `1 ≤ i < N` is
zero, while the first-stage offset equals `A_0·x_0` (and so vanishes only when
`A_0·x_0 = 0`). -/
theorem c1_roundtrip_amended {n m : ℕ} (p : LQOCProblem n m) (N : ℕ)
    (hb : ∀ i, i < N → p.b i = 0)
    (hdyn : ∀ i, i < N → p.x (i + 1) = p.A i *ᵥ p.x i + p.B i *ᵥ p.u i) :
    (∀ i, 1 ≤ i → i < N → hbArr p i = 0) ∧
    (1 ≤ N → hbArr p 0 = p.A 0 *ᵥ p.x 0) := by
  constructor
  · intro i hi1 hiN
    have hne : i ≠ 0 := by omega
    simp only [hbArr, Function.update_noteq hne, bEigenArr]
    rw [hb i hiN, hdyn i hiN]
    abel
  · intro hN
    simp only [hbArr, Function.update_same, hb0]
    rw [hb 0 hN, hdyn 0 hN]
    abel

/-- C1 witness for the amended statement, on `exP` with horizon `N = 1`. -/
theorem c1_roundtrip_amended_witness :
    ((∀ i, i < 1 → exP.b i = 0) ∧
     (∀ i, i < 1 → exP.x (i + 1) = exP.A i *ᵥ exP.x i + exP.B i *ᵥ exP.u i)) ∧
    ((∀ i, 1 ≤ i → i < 1 → hbArr exP i = 0) ∧
     (1 ≤ 1 → hbArr exP 0 = exP.A 0 *ᵥ exP.x 0)) := by
  have hb : ∀ i, i < 1 → exP.b i = 0 := fun i _ => rfl
  have hdyn : ∀ i, i < 1 →
      exP.x (i + 1) = exP.A i *ᵥ exP.x i + exP.B i *ᵥ exP.u i := by
    intro i hi
    have h0 : i = 0 := by omega
    subst h0
    funext j
    simp [exP, Matrix.one_mulVec]
  exact ⟨⟨hb, hdyn⟩, c1_roundtrip_amended exP 1 hb hdyn⟩

/-- C4: the transcription computes `q_abs_i = q_i − Q_i·x_i − S_iᵗ·u_i` for
stages below the horizon and `r_abs_i = r_i − R_i·u_i − S_i·x_i` for interior
stages; the terminal stage receives only `q_abs_N = q_N − Q_N·x_N` with the
`S_N`, `R_N`, `r_N` entries null; and exactly the first stage receives the
extra correction `r_abs_0 = (generic formula at 0) + S_0·x_0` (the mixed
Hessian `S` is the `P` array of the source). -/
theorem c4_cost_offsets {n m : ℕ} (p : LQOCProblem n m) (N i : ℕ)
    (hN : 1 ≤ N) :
    (i < N → hqArr p N i = p.qv i - p.Q i *ᵥ p.x i - (p.P i)ᵀ *ᵥ p.u i) ∧
    (1 ≤ i → i < N →
      hrArr p N i = some (p.rv i - p.R i *ᵥ p.u i - p.P i *ᵥ p.x i)) ∧
    hqArr p N N = p.qv N - p.Q N *ᵥ p.x N ∧
    hrArr p N N = none ∧
    hSArr p N N = none ∧
    hRArr p N N = none ∧
    hrArr p N 0 = some (hrEigenArr p 0 + p.P 0 *ᵥ p.x 0) := by
  refine ⟨?_, ?_, ?_, ?_, ?_, ?_, ?_⟩
  · intro hiN
    have hne : i ≠ N := by omega
    simp only [hqArr, Function.update_noteq hne]
    rfl
  · intro hi1 hiN
    have hne0 : i ≠ 0 := by omega
    have hneN : i ≠ N := by omega
    simp only [hrArr, Function.update_noteq hne0, Function.update_noteq hneN]
    rfl
  · simp only [hqArr, Function.update_same]
  · have hne : N ≠ 0 := by omega
    simp only [hrArr, Function.update_noteq hne, Function.update_same]
  · simp only [hSArr, Function.update_same]
  · simp only [hRArr, Function.update_same]
  · simp only [hrArr, Function.update_same, hr0]

/-- C4 witness: all seven parts on the concrete problem `exP` with horizon
`N = 2` at interior stage `i = 1`. -/
theorem c4_cost_offsets_witness :
    (1 ≤ 2) ∧
    ((1 < 2 → hqArr exP 2 1 =
        exP.qv 1 - exP.Q 1 *ᵥ exP.x 1 - (exP.P 1)ᵀ *ᵥ exP.u 1) ∧
     (1 ≤ 1 → 1 < 2 →
        hrArr exP 2 1 =
          some (exP.rv 1 - exP.R 1 *ᵥ exP.u 1 - exP.P 1 *ᵥ exP.x 1)) ∧
     hqArr exP 2 2 = exP.qv 2 - exP.Q 2 *ᵥ exP.x 2 ∧
     hrArr exP 2 2 = none ∧
     hSArr exP 2 2 = none ∧
     hRArr exP 2 2 = none ∧
     hrArr exP 2 0 = some (hrEigenArr exP 0 + exP.P 0 *ᵥ exP.x 0)) :=
  ⟨one_le_two, c4_cost_offsets exP 2 1 one_le_two⟩

/-- C7: after a solve, the state trajectory returned by `getSolutionState` has
its stage-0 entry exactly equal to the supplied initial state `x0` (whatever
the solver kernel wrote), and the control trajectory returned by
`getSolutionControl` has exactly `N` entries, one per stage `0 … N−1`, with no
entry for the terminal stage. -/
theorem c7_solution_extraction (n m N : ℕ) (rawx : ℕ → Vec n)
    (rawu : ℕ → Vec m) (x0 : Vec n) :
    getSolutionState n rawx x0 0 = x0 ∧
    (getSolutionControl m N rawu).length = N ∧
    ∀ i : Fin N, (getSolutionControl m N rawu).getD (i : ℕ) 0 = rawu (i : ℕ) := by
  refine ⟨by simp [getSolutionState], by simp [getSolutionControl], ?_⟩
  intro i
  have hlen : (i : ℕ) < ((List.range N).map rawu).length := by
    simp only [List.length_map, List.length_range]
    exact i.isLt
  rw [getSolutionControl, List.getD_eq_getElem _ _ hlen]
  simp

/-- C8: each of the explicitly unsupported operations — the continuous-time
controllability and observability Gramians, `computeOutput`, and `getFeedback`
— returns its fixed error on every input and never returns a value. -/
theorem c8_unsupported_operations :
    (∀ (n m : ℕ) (sys : LTISystemData n m) (state : Vec n) (tn : ℚ)
        (control : Vec m),
      computeOutput sys state tn control =
        Except.error "LTISystem: computeOutput() not ported to manifolds yet." ∧
      ∀ y, computeOutput sys state tn control ≠ Except.ok y) ∧
    (∀ (n m : ℕ) (sys : LTISystemData n m) (maxIters : ℕ) (tol : ℚ),
      computeControllabilityGramianCT sys maxIters tol =
        Except.error
          "Computation of controllability Gramian not implemented for continuous-time systems yet." ∧
      ∀ y, computeControllabilityGramianCT sys maxIters tol ≠ Except.ok y) ∧
    (∀ (n m : ℕ) (sys : LTISystemData n m) (maxIters : ℕ) (tol : ℚ),
      computeObservabilityGramianCT sys maxIters tol =
        Except.error
          "Computation of observability Gramian not implemented for continuous-time systems yet." ∧
      ∀ y, computeObservabilityGramianCT sys maxIters tol ≠ Except.ok y) ∧
    (∀ n m N : ℕ,
      getFeedback n m N = Except.error "not implemented" ∧
      ∀ y, getFeedback n m N ≠ Except.ok y) := by
  refine ⟨fun n m sys state tn control => ⟨rfl, fun y h => ?_⟩,
         fun n m sys maxIters tol => ⟨rfl, fun y h => ?_⟩,
         fun n m sys maxIters tol => ⟨rfl, fun y h => ?_⟩,
         fun n m N => ⟨rfl, fun y h => ?_⟩⟩ <;> exact Except.noConfusion h

/-- C9 counterexample: an `LTISystem` built with the no-argument default
constructor (here with state and control dimension 1) has `C` equal to the
zero matrix, not the identity, refuting the claim for the default
constructor. -/
theorem c9_counterexample :
    (LTISystemData.mkDefault 1 1).C ≠ (1 : Mat 1 1) := by
  intro h
  have h00 := congrFun (congrFun h 0) 0
  simp [LTISystemData.mkDefault, Matrix.one_apply] at h00

/-- C9 (amended): an `LTISystem` built with the two-argument constructor,
which defaults the unsupplied `C` and `D`, has `C` equal to the identity and
`D` equal to zero; the no-argument default constructor instead zero-initializes
all four matrices, so there `C = 0` and `D = 0`. -/
theorem c9_default_matrices_amended (n m : ℕ) (A : Mat n n) (B : Mat n m) :
    (LTISystemData.mkAB A B).C = 1 ∧
    (LTISystemData.mkAB A B).D = 0 ∧
    (LTISystemData.mkDefault n m).C = 0 ∧
    (LTISystemData.mkDefault n m).D = 0 :=
  ⟨rfl, rfl, rfl, rfl⟩

/-- C6: the controllability matrix built by `computeControllabilityMatrix` is
exactly the block matrix `[B, AB, A²B, …, A^(n−1)B]` (independently of the
uninitialized contents of the stack matrix), `isControllable` holds exactly
when that matrix has full row rank `n`, and in particular for `A = 0` and
`B` the identity with `state_dim = control_dim = n` the system is
controllable. -/
theorem c6_controllability :
    (∀ (n m : ℕ) (A : Mat n n) (B : Mat n m) (init : ℕ → ℕ → ℚ),
      computeControllabilityMatrix n m A B init = stackedCO n m A B) ∧
    (∀ (n m : ℕ) (A : Mat n n) (B : Mat n m) (init : ℕ → ℕ → ℚ),
      isControllable n m A B init ↔
        (computeControllabilityMatrix n m A B init).rank = n) ∧
    (∀ n : ℕ, isControllable n n (0 : Mat n n) (1 : Mat n n) (fun _ _ => 0)) := by
  refine ⟨computeControllabilityMatrix_eq_stacked,
    fun n m A B init => Iff.rfl, ?_⟩
  intro n
  rcases Nat.eq_zero_or_pos n with hn | hn
  · subst hn
    have h := Matrix.rank_le_card_height
      (computeControllabilityMatrix 0 0 (0 : Mat 0 0) (1 : Mat 0 0)
        (fun _ _ => 0))
    simp only [Fintype.card_fin] at h
    exact Nat.le_zero.mp h
  · show (computeControllabilityMatrix n n (0 : Mat n n) (1 : Mat n n)
      (fun _ _ => 0)).rank = n
    rw [computeControllabilityMatrix_eq_stacked]
    apply le_antisymm
    · exact le_trans (Matrix.rank_le_card_height _)
        (le_of_eq (Fintype.card_fin n))
    · have hle := Matrix.rank_mul_le_left (stackedCO n n (0 : Mat n n) 1)
        (coInclusion n)
      rwa [stackedCO_mul_coInclusion n hn, Matrix.rank_one,
        Fintype.card_fin] at hle

/-- C2 (code bug): on a 2-state system with `A = C = I`, the observability
loop writes its second block (`C·A`) at row offset `1·STATE_DIM = 2` of a
matrix declared with only 2 rows — part 1 shows the written value at the
out-of-bounds position `(2,0)` — while the in-bounds entry `(0,2)` of the
declared matrix is never written: parts 2 and 3 show it still holds whatever
the uninitialized memory contained, and part 4 concludes the produced matrix
depends on uninitialized memory, so it cannot be the stacked observability
matrix `[C; CA]` of the claim (which is a function of `A` and `C` alone, and
would in any case be `n² × n`, not `n × n²`). -/
theorem c2_observability_code_bug :
    obsGrid 2 (1 : Mat 2 2) (1 : Mat 2 2) (fun _ _ => 0) 2 0 = 1 ∧
    computeObservabilityMatrix 2 (1 : Mat 2 2) (1 : Mat 2 2) (fun _ _ => 0)
      ⟨0, by norm_num⟩ ⟨2, by norm_num⟩ = 0 ∧
    computeObservabilityMatrix 2 (1 : Mat 2 2) (1 : Mat 2 2) (fun _ _ => 37)
      ⟨0, by norm_num⟩ ⟨2, by norm_num⟩ = 37 ∧
    computeObservabilityMatrix 2 (1 : Mat 2 2) (1 : Mat 2 2) (fun _ _ => 0) ≠
      computeObservabilityMatrix 2 (1 : Mat 2 2) (1 : Mat 2 2)
        (fun _ _ => 37) := by
  have h2 : computeObservabilityMatrix 2 (1 : Mat 2 2) (1 : Mat 2 2)
      (fun _ _ => 0) ⟨0, by norm_num⟩ ⟨2, by norm_num⟩ = 0 := by
    show writeBlk 2 2 2 0
      (readBlk 2 2 0 0 (writeBlk 2 2 0 0 (1 : Mat 2 2) (fun _ _ => 0)) *
        (1 : Mat 2 2))
      (writeBlk 2 2 0 0 (1 : Mat 2 2) (fun _ _ => 0)) 0 2 = 0
    rw [writeBlk, dif_neg (by omega)]
    show writeBlk 2 2 0 0 (1 : Mat 2 2) (fun _ _ => 0) 0 2 = 0
    rw [writeBlk, dif_neg (by omega)]
  have h3 : computeObservabilityMatrix 2 (1 : Mat 2 2) (1 : Mat 2 2)
      (fun _ _ => 37) ⟨0, by norm_num⟩ ⟨2, by norm_num⟩ = 37 := by
    show writeBlk 2 2 2 0
      (readBlk 2 2 0 0 (writeBlk 2 2 0 0 (1 : Mat 2 2) (fun _ _ => 37)) *
        (1 : Mat 2 2))
      (writeBlk 2 2 0 0 (1 : Mat 2 2) (fun _ _ => 37)) 0 2 = 37
    rw [writeBlk, dif_neg (by omega)]
    show writeBlk 2 2 0 0 (1 : Mat 2 2) (fun _ _ => 37) 0 2 = 37
    rw [writeBlk, dif_neg (by omega)]
  refine ⟨?_, h2, h3, fun h => ?_⟩
  · show writeBlk 2 2 2 0
      (readBlk 2 2 0 0 (writeBlk 2 2 0 0 (1 : Mat 2 2) (fun _ _ => 0)) *
        (1 : Mat 2 2))
      (writeBlk 2 2 0 0 (1 : Mat 2 2) (fun _ _ => 0)) 2 0 = 1
    rw [writeBlk, dif_pos (by omega)]
    rw [Matrix.mul_one, readBlk_writeBlk_same]
    exact Matrix.one_apply_eq _
  · rw [h] at h2
    rw [h3] at h2
    norm_num at h2

/-- C5: the discrete-time Gramian iterations return exactly a truncated power
series: the controllability Gramian equals `Σ_{k<K} A^k·B·Bᵀ·(A^k)ᵀ` and the
observability Gramian equals `Σ_{k<K} (A^k)ᵀ·Cᵀ·C·A^k` for a stopping index
`K ≤ maxIters`, with `K = maxIters` when the budget ran out, and otherwise the
entrywise 1-norm of the last added increment `G_K − G_{K−1}` dropped below the
tolerance (the source checks `(CG_prev − CG).lpNorm<1>()`, which equals the
norm of the added term). -/
theorem c5_gramian_truncated_sum (n m : ℕ) (A : Mat n n) (B : Mat n m)
    (C : Mat n n) (maxIters : ℕ) (tol : ℚ) :
    (∃ K, K ≤ maxIters ∧
      computeControllabilityGramianD n m A B maxIters tol =
        ctrlGramSum n m A B K ∧
      (K = maxIters ∨ (0 < K ∧ l1Norm (ctrlGramTerm n m A B (K - 1)) < tol))) ∧
    (∃ K, K ≤ maxIters ∧
      computeObservabilityGramianD n A C maxIters tol = obsGramSum n A C K ∧
      (K = maxIters ∨ (0 < K ∧ l1Norm (obsGramTerm n A C (K - 1)) < tol))) :=
  ⟨computeControllabilityGramianD_eq_sum n m A B maxIters tol,
   computeObservabilityGramianD_eq_sum n A C maxIters tol⟩

/-- C10: every partial sum produced by the discrete Gramian iterations is
symmetric positive semidefinite, each increment `G_{k+1} − G_k` is positive
semidefinite (so the iterates are monotone non-decreasing in the semidefinite
order), and the returned Gramians are always symmetric positive
semidefinite. -/
theorem c10_gramian_psd (n m : ℕ) (A : Mat n n) (B : Mat n m) (C : Mat n n)
    (maxIters k : ℕ) (tol : ℚ) :
    IsPSDQ (ctrlGramSum n m A B k) ∧
    IsPSDQ (ctrlGramSum n m A B (k + 1) - ctrlGramSum n m A B k) ∧
    IsPSDQ (computeControllabilityGramianD n m A B maxIters tol) ∧
    IsPSDQ (obsGramSum n A C k) ∧
    IsPSDQ (obsGramSum n A C (k + 1) - obsGramSum n A C k) ∧
    IsPSDQ (computeObservabilityGramianD n A C maxIters tol) := by
  refine ⟨isPSDQ_ctrlGramSum n m A B k, ?_, ?_, isPSDQ_obsGramSum n A C k,
    ?_, ?_⟩
  · have h : ctrlGramSum n m A B (k + 1) - ctrlGramSum n m A B k =
        ctrlGramTerm n m A B k := by
      rw [ctrlGramSum_succ]; abel
    rw [h]
    exact isPSDQ_ctrlGramTerm n m A B k
  · obtain ⟨K, _, heq, _⟩ :=
      computeControllabilityGramianD_eq_sum n m A B maxIters tol
    rw [heq]
    exact isPSDQ_ctrlGramSum n m A B K
  · have h : obsGramSum n A C (k + 1) - obsGramSum n A C k =
        obsGramTerm n A C k := by
      rw [obsGramSum_succ]; abel
    rw [h]
    exact isPSDQ_obsGramTerm n A C k
  · obtain ⟨K, _, heq, _⟩ := computeObservabilityGramianD_eq_sum n A C maxIters tol
    rw [heq]
    exact isPSDQ_obsGramSum n A C K

end CTCore
